import Mathlib

/-!
Verification of the pydris command-invocation engine.

This file is a shallow embedding, in Lean 4, of the pure core of the
pydris chat-bot library: the tokenizer `parse_content`, the value
parsers, the parameter binder `Param.parse`, command invocation
`Command.invoke`, the registry built by `Client.add_command`, the
listener-based dispatch in `Client.handle_message`, and
`Extension.invoke`.  Python strings are Lean `String`s, Python dicts
(which preserve insertion order) are association lists, raised
exceptions are the `PErr` error type threaded through `Except`, and
asynchronous methods are modelled as the pure functions they compute
(the awaited handler call itself is outside the scope of the claims).
-/

/-- Runtime errors raised by the Python code: `ValueError msg` for
`raise ValueError(msg)`, `indexError` for an out-of-range subscript
such as `[][0]`, and `attributeError` for access to a missing
attribute. -/
inductive PErr where
  | valueError (msg : String)
  | indexError
  | attributeError (msg : String)
deriving DecidableEq, Repr

/-- Dynamic values flowing through the binder (Python is untyped; the
claims only exercise string, integer and boolean values). -/
inductive Val where
  | str (s : String)
  | int (i : Int)
  | bool (b : Bool)
deriving DecidableEq, Repr

/-- Insertion-order preserving `d.setdefault(k, []).append(v)` on an
association-list model of a Python dict mapping names to lists. -/
def kwAppend (kwargs : List (String × List String)) (nm v : String) :
    List (String × List String) :=
  match kwargs with
  | [] => [(nm, [v])]
  | (k, vs) :: rest =>
      if k = nm then (k, vs ++ [v]) :: rest else (k, vs) :: kwAppend rest nm v

/-- Python `d.get(k)` on an association-list model of a dict. -/
def dictGet {β : Type} (k : String) : List (String × β) → Option β
  | [] => none
  | (k2, v) :: rest => if k2 = k then some v else dictGet k rest

/-- Python `d[k] = v` on an association-list model of a dict:
updating an existing key keeps its position, a new key is appended. -/
def dictSet {β : Type} (d : List (String × β)) (k : String) (v : β) :
    List (String × β) :=
  match d with
  | [] => [(k, v)]
  | (k2, v2) :: rest =>
      if k2 = k then (k2, v) :: rest else (k2, v2) :: dictSet rest k v

/-- The loop state of `parse_content` (src/pydris/commands.py lines
151-159): the accumulated positional tokens `args`, the flag mapping
`kwargs`, the five mode flags, and the pending `value` and `name`
buffers. -/
structure TokState where
  args : List String
  kwargs : List (String × List String)
  quoted : Bool
  escaped : Bool
  dash : Bool
  double_dash : Bool
  value : String
  name : String
deriving DecidableEq, Repr

/-- The shared commit step of `parse_content`: `if name:` append the
value buffer to that flag's list, `elif value:` append it as a
positional token; then reset both buffers (commands.py lines 171-176,
199-204). -/
def commit (st : TokState) : TokState :=
  if st.name ≠ "" then
    { st with kwargs := kwAppend st.kwargs st.name st.value,
              name := "", value := "" }
  else if st.value ≠ "" then
    { st with args := st.args ++ [st.value], name := "", value := "" }
  else
    { st with name := "", value := "" }

/-- The first half of the space branch of `parse_content`: a dash
sequence with no name yet becomes the bare positional token `"--"` or
`"-"` (commands.py lines 187-190). -/
def bareDash (st : TokState) : TokState :=
  if st.double_dash = true ∧ st.name = "" then
    { st with args := st.args ++ ["--"] }
  else if st.dash = true ∧ st.name = "" then
    { st with args := st.args ++ ["-"] }
  else st

/-- The space branch of `parse_content` (commands.py lines 186-204). -/
def spaceStep (st : TokState) : TokState :=
  let st1 := bareDash st
  if st1.double_dash = true then
    { st1 with double_dash := false, dash := false }
  else if st1.name ≠ "" ∧ st1.value = "" then st1
  else if st1.quoted = true then { st1 with value := st1.value.push ' ' }
  else commit st1

/-- One iteration of the character loop of `parse_content`
(commands.py lines 161-206), a literal transcription of the
`if`/`elif` chain. -/
def tokStep (st : TokState) (c : Char) : TokState :=
  if c = '\\' ∧ st.escaped = false then { st with escaped := true }
  else if st.escaped = true then
    { st with value := st.value.push c, escaped := false }
  else if c = '"' ∧ st.quoted = false then { st with quoted := true }
  else if c = '"' then commit { st with quoted := false }
  else if c = '-' ∧ st.dash = false ∧ st.value = "" ∧ st.quoted = false then
    { st with dash := true }
  else if c = '-' ∧ st.double_dash = false ∧ st.value = "" ∧ st.quoted = false then
    { st with double_dash := true }
  else if st.double_dash = true ∧ c ≠ ' ' then
    { st with name := st.name.push c }
  else if st.dash = true ∧ c ≠ ' ' then
    { st with name := String.singleton c, dash := false }
  else if c = ' ' then spaceStep st
  else { st with value := st.value.push c }

/-- The initial loop state of `parse_content`. -/
def tokInit : TokState :=
  { args := [], kwargs := [], quoted := false, escaped := false,
    dash := false, double_dash := false, value := "", name := "" }

/-- The end-of-input commit of `parse_content` (commands.py lines
208-213): a pending flag entry or pending positional value is
committed, then `(args, kwargs)` is returned. -/
def tokFinish (st : TokState) : List String × List (String × List String) :=
  if st.name ≠ "" then (st.args, kwAppend st.kwargs st.name st.value)
  else if st.value ≠ "" then (st.args ++ [st.value], st.kwargs)
  else (st.args, st.kwargs)

/-- `parse_content` (commands.py lines 150-213): fold the character
step over the input and commit what is pending at end of input. -/
def parse_content (content : String) :
    List String × List (String × List String) :=
  tokFinish (content.data.foldl tokStep tokInit)

/-- Python `int()` on the decimal integer literals the claims
exercise: an optional sign followed by a non-empty digit string;
anything else raises `ValueError`. -/
def digitsToNat (cs : List Char) : Option Nat :=
  if cs = [] then none
  else
    cs.foldl
      (fun acc c =>
        match acc with
        | some n => if c.isDigit then some (10 * n + (c.toNat - 48)) else none
        | none => none)
      (some 0)

/-- Python `int(s)` for `parse_content`-produced tokens (see
`digitsToNat`). -/
def pyIntOfString (s : String) : Except PErr Int :=
  match s.data with
  | '-' :: rest =>
      match digitsToNat rest with
      | some n => .ok (-(n : Int))
      | none => .error (.valueError ("invalid literal for int: " ++ s))
  | '+' :: rest =>
      match digitsToNat rest with
      | some n => .ok ((n : Int))
      | none => .error (.valueError ("invalid literal for int: " ++ s))
  | cs =>
      match digitsToNat cs with
      | some n => .ok ((n : Int))
      | none => .error (.valueError ("invalid literal for int: " ++ s))

/-- `NumberParser(decimal=False, signed).parse` (commands.py lines
62-69) restricted to the integer branch: `int(arg)`, then reject
negative values when `signed` is false.  (The `decimal=True` branch
calls Python `float` and is outside the claims.) -/
def numberParse (signed : Bool) (arg : String) : Except PErr (List Int) :=
  match pyIntOfString arg with
  | .error e => .error e
  | .ok found =>
      if signed = false ∧ found < 0 then
        .error (.valueError "This number may not be negative")
      else .ok [found]

/-- `StringParser.parse` (commands.py lines 52-53): identity, one
output per input. -/
def stringParse (arg : String) : Except PErr (List String) := .ok [arg]

/-- `StringParser.parse` producing dynamic `Val`s, as used inside
`Command.invoke`. -/
def strValParse (arg : String) : Except PErr (List Val) := .ok [Val.str arg]

/-- The result of `Param.parse`: a single value (`multiple=False` or a
resolved default) or the full list (`multiple=True`). -/
inductive BindResult (α : Type) where
  | single (a : α)
  | many (l : List α)
deriving DecidableEq, Repr

/-- The `for i in args: parsed.append(await self.parser.parse(i))` loop
of `Param.parse` (commands.py lines 30-32): run the parser over every
raw token in order, stopping at the first parser error. -/
def mapMParse {α : Type} (p : String → Except PErr (List α)) :
    List String → Except PErr (List (List α))
  | [] => .ok []
  | a :: as =>
      match p a with
      | .error e => .error e
      | .ok v =>
          match mapMParse p as with
          | .error e => .error e
          | .ok vs => .ok (v :: vs)

/-- `Param.parse` (commands.py lines 29-45): run the parser over every
token, flatten the per-token lists, then apply the zero-value /
last-wins / full-list policy.  `required`, `default` and `multiple`
are the fields of the `Param`; `nm` its name (used in the error
message). -/
def paramParse {α : Type} (p : String → Except PErr (List α))
    (required : Bool) (default : Option α) (multiple : Bool)
    (nm : String) (args : List String) : Except PErr (BindResult α) :=
  match mapMParse p args with
  | .error e => .error e
  | .ok parsed =>
      match parsed.flatten with
      | [] =>
          if required then
            .error (.valueError ("Parameter " ++ nm ++ " is required"))
          else
            match default with
            | none =>
                .error (.valueError
                  "Parameter cannot be required and have a default value")
            | some d => .ok (.single d)
      | m :: ms =>
          if multiple then .ok (.many (m :: ms))
          else .ok (.single ((m :: ms).getLast (by simp)))

/-- Python string slice `s[n:]` (character-based, as all message
contents here are ASCII). -/
def strDrop (s : String) (n : Nat) : String := ⟨s.data.drop n⟩

/-- Python `s.split(" ", 1)[0]`: the characters before the first
space (the whole string when it has no space). -/
def strHeadWord (s : String) : String := ⟨s.data.takeWhile (fun c => c ≠ ' ')⟩

/-- Python `s.startswith(p)`. -/
def strStartsWith (s p : String) : Bool := p.data.isPrefixOf s.data

/-- A `Param` as held in `Command.args` (commands.py lines 10-27),
with its parser specialised to dynamic `Val`s. -/
structure CmdParam where
  name : String
  parser : String → Except PErr (List Val)
  required : Bool
  default : Option Val
  multiple : Bool
  short : Option String
  flag : Bool

/-- A value stored in `passed_args`: `none` is Python `None` (a
declared default of `None` is stored as-is). -/
def PyVal : Type := Option (BindResult Val)

/-- The partition loop of `Command.invoke` (commands.py lines
108-114): flagged parameters go into the dict `kwparams` keyed by
name, the rest into the list `params` in declaration order. -/
def buildKwparams (cargs : List CmdParam) : List (String × CmdParam) :=
  cargs.foldl (fun d a => if a.flag then dictSet d a.name a else d) []

/-- The positional partition of `Command.invoke` (commands.py lines
110-114). -/
def positionalParams (cargs : List CmdParam) : List CmdParam :=
  cargs.filter (fun a => !a.flag)

/-- The Python test `passed_args.get(param.name) is None`: true when
the key is absent or maps to `None`. -/
def pyIsNone (o : Option PyVal) : Bool :=
  match o with
  | some (some _) => false
  | _ => true

/-- The zip loop of `Command.invoke` (commands.py lines 116-117):
`passed_args[param.name] = await param.parse([arg])` for each
`(arg, param)` pair of `zip(args, params)`. -/
def bindPositional (pairs : List (String × CmdParam))
    (passed : List (String × PyVal)) :
    Except PErr (List (String × PyVal)) :=
  match pairs with
  | [] => .ok passed
  | (a, p) :: rest =>
      match paramParse p.parser p.required p.default p.multiple p.name [a] with
      | .error e => .error e
      | .ok v => bindPositional rest (dictSet passed p.name (some v))

/-- The required-check loop of `Command.invoke` (commands.py lines
118-124): a positional parameter with no bound value falls back to its
default when not required, and raises `ValueError("Not enough args")`
when required. -/
def checkPositional (ps : List CmdParam)
    (passed : List (String × PyVal)) :
    Except PErr (List (String × PyVal)) :=
  match ps with
  | [] => .ok passed
  | p :: rest =>
      if pyIsNone (dictGet p.name passed) then
        if p.required then .error (.valueError "Not enough args")
        else
          checkPositional rest
            (dictSet passed p.name (p.default.map BindResult.single))
      else checkPositional rest passed

/-- The flag-token gathering of `Command.invoke` (commands.py lines
126-132) including Python `or` short-circuit evaluation: when
`kwargs.get(v.name)` is not `None` the walrus assignment to `skwarg`
never runs, so `skwarg` stays `None` and only the long-name list is
collected; the short-alias list is consulted only when the long name
is absent.  Returns `none` when the final `else` branch (the raise)
is taken. -/
def gatherFlag (kwargs : List (String × List String)) (nm : String)
    (short : Option String) : Option (List String) :=
  match dictGet nm kwargs with
  | some kw => some kw
  | none =>
      match short with
      | some s =>
          match dictGet s kwargs with
          | some skw => some skw
          | none => none
      | none => none

/-- The flagged-parameter loop of `Command.invoke` (commands.py lines
125-136): for each flagged parameter in `kwparams.values()`, gather
its tokens (see `gatherFlag`) and bind them, or raise
`ValueError("Not enough args")` when neither name is present. -/
def bindFlagged (kwargs : List (String × List String))
    (ps : List CmdParam) (passed : List (String × PyVal)) :
    Except PErr (List (String × PyVal)) :=
  match ps with
  | [] => .ok passed
  | v :: rest =>
      match gatherFlag kwargs v.name v.short with
      | some toks =>
          match paramParse v.parser v.required v.default v.multiple
              v.name toks with
          | .error e => .error e
          | .ok bound => bindFlagged kwargs rest (dictSet passed v.name (some bound))
      | none => .error (.valueError "Not enough args")

/-- `Command.invoke` (commands.py lines 104-137) up to and excluding
the final handler call: strip the invocation keyword, tokenize the
remainder, bind positional then flagged parameters, and either produce
the fully bound `passed_args` dict (with which `self.func` is then
awaited) or the first raised error.  `cargs` is `self.args`, `pfx` the
configured prefix, `content` the message content. -/
def commandInvoke (cargs : List CmdParam) (pfx content : String) :
    Except PErr (List (String × PyVal)) :=
  let invocation := pfx ++ strHeadWord (strDrop content pfx.length)
  let tb := parse_content (strDrop content invocation.length)
  let params := positionalParams cargs
  let kwparams := (buildKwparams cargs).map (fun kv => kv.2)
  match bindPositional (tb.1.zip params) [] with
  | .error e => .error e
  | .ok passed =>
      match checkPositional params passed with
      | .error e => .error e
      | .ok passed2 => bindFlagged tb.2 kwparams passed2

/-- The registration loop shared by `Client.add_command` (client.py
lines 87-90) and `Extension.command` (extensions.py lines 40-43):
walk `command.names` in order; a name already present in the dict
raises `ValueError("A command with this name already exists")` and the
loop stops there — names inserted before the collision stay in the
dict, because a Python `raise` does not undo earlier mutations.
Commands are identified by a numeric id `cid`; the result pairs the
raised error (if any) with the dict as it stands afterwards. -/
def add_command (cid : Nat) :
    List (String × Nat) → List String → Option PErr × List (String × Nat)
  | reg, [] => (none, reg)
  | reg, n :: ns =>
      if (dictGet n reg).isSome then
        (some (.valueError "A command with this name already exists"), reg)
      else add_command cid (reg ++ [(n, cid)]) ns

/-- Python `str.split()` with no argument: split on runs of
whitespace, discarding empty pieces. -/
def pySplitWs : List Char → List Char → List (List Char)
  | cur, [] => if cur = [] then [] else [cur.reverse]
  | cur, c :: cs =>
      if c.isWhitespace then
        if cur = [] then pySplitWs [] cs
        else cur.reverse :: pySplitWs [] cs
      else pySplitWs (c :: cur) cs

/-- The listener predicate registered by `Client.add_command`
(client.py line 91):
`m.content.startswith(prefix) and m.content[len(prefix):].split()[0] in command.names`.
Python `and` short-circuits, so a non-matching prefix never reaches
the subscript; but on a message equal to the prefix (or prefix plus
whitespace only) `split()` returns `[]` and `[0]` raises
`IndexError`. -/
def cmdPred (names : List String) (pfx content : String) :
    Except PErr Bool :=
  if strStartsWith content pfx then
    match pySplitWs [] (strDrop content pfx.length).data with
    | [] => .error .indexError
    | w :: _ => .ok (names.contains (String.mk w))
  else .ok false

/-- `Client.handle_message` (client.py lines 57-62) over the listeners
registered by `add_command`, one per command, each carrying that
command's `names` list: evaluate each predicate in registration order
and invoke the commands whose predicate holds.  Invocation itself is
abstracted to recording the matched command's names; a predicate that
raises propagates out. -/
def handle_message (listeners : List (List String)) (pfx content : String) :
    Except PErr (List (List String)) :=
  match listeners with
  | [] => .ok []
  | names :: rest =>
      match cmdPred names pfx content with
      | .error e => .error e
      | .ok b =>
          match handle_message rest pfx content with
          | .error e => .error e
          | .ok invoked => .ok (if b then names :: invoked else invoked)

/-- `Extension.invoke` (extensions.py lines 47-50): extract the
leading keyword after the prefix with `split(" ", 1)[0]`, look it up
in the extension's command dict, and — when found — call
`command.invoke_with_client(client, msg, prefix)`.  The `Command`
class defines no attribute `invoke_with_client` (commands.py defines
only `invoke`), so Python attribute lookup on the found command raises
`AttributeError`; a missing keyword returns `None`. -/
def extensionInvoke (cmds : List (String × Nat)) (pfx content : String) :
    Except PErr (Option Nat) :=
  let cmd := strHeadWord (strDrop content pfx.length)
  match dictGet cmd cmds with
  | some _ =>
      .error (.attributeError "Command object has no attribute invoke_with_client")
  | none => .ok none

instance exceptDecEq {ε α : Type} [DecidableEq ε] [DecidableEq α] :
    DecidableEq (Except ε α) := fun a b =>
  match a, b with
  | .error e1, .error e2 =>
      if h : e1 = e2 then .isTrue (by rw [h])
      else .isFalse (fun hc => h (Except.error.inj hc))
  | .ok x, .ok y =>
      if h : x = y then .isTrue (by rw [h])
      else .isFalse (fun hc => h (Except.ok.inj hc))
  | .error _, .ok _ => .isFalse (fun hc => Except.noConfusion hc)
  | .ok _, .error _ => .isFalse (fun hc => Except.noConfusion hc)

instance pyValDecEq : DecidableEq PyVal :=
  inferInstanceAs (DecidableEq (Option (BindResult Val)))

/-- Looking a key up in an appended association list tries the left
part first. -/
theorem dictGet_append {β : Type} (k : String) (l1 l2 : List (String × β)) :
    dictGet k (l1 ++ l2) =
      match dictGet k l1 with
      | some v => some v
      | none => dictGet k l2 := by
  induction l1 with
  | nil => simp [dictGet]
  | cons kv rest ih =>
      obtain ⟨k2, v⟩ := kv
      by_cases h : k2 = k <;> simp [dictGet, h, ih]

/-- C7: a `multiple=True` parameter bound to the tokens
`["1","2","3"]` through the Number parser with `decimal=False` yields
the ordered list `[1, 2, 3]`; with `multiple=False` the same tokens
yield `3` (the last value wins). -/
theorem c7_multiple_binding :
    paramParse (numberParse true) true none true "n" ["1", "2", "3"] =
      .ok (.many [1, 2, 3]) ∧
    paramParse (numberParse true) true none false "n" ["1", "2", "3"] =
      .ok (.single 3) := by
  constructor <;> rfl

/-- C8: tokenizing the exact string `foo "bar baz" --flag value -f v2`
yields positional tokens `["foo", "bar baz"]` and the flag mapping
`flag ↦ ["value"], f ↦ ["v2"]`. -/
theorem c8_tokenize_example :
    parse_content "foo \"bar baz\" --flag value -f v2" =
      (["foo", "bar baz"], [("flag", ["value"]), ("f", ["v2"])]) := by
  decide

/-- Registering a list of names none of which is already a key (and
which are pairwise distinct) succeeds and appends every name, mapped
to the command, to the registry. -/
theorem add_command_fresh (cid : Nat) (names : List String) :
    ∀ (reg : List (String × Nat)),
      (∀ n ∈ names, (dictGet n reg).isSome = false) → names.Nodup →
      add_command cid reg names = (none, reg ++ names.map (fun n => (n, cid))) := by
  induction names with
  | nil => intro reg _ _; simp [add_command]
  | cons n ns ih =>
      intro reg hfresh hnodup
      have hn : (dictGet n reg).isSome = false := hfresh n (List.mem_cons_self n ns)
      have step : add_command cid reg (n :: ns) =
          add_command cid (reg ++ [(n, cid)]) ns := by
        simp [add_command, hn]
      have hfresh2 : ∀ m ∈ ns, (dictGet m (reg ++ [(n, cid)])).isSome = false := by
        intro m hm
        have hm2 : (dictGet m reg).isSome = false :=
          hfresh m (List.mem_cons_of_mem _ hm)
        have hmn : m ≠ n := by
          intro hEq
          exact (List.nodup_cons.mp hnodup).1 (hEq ▸ hm)
        rw [dictGet_append]
        cases hg : dictGet m reg with
        | some v => rw [hg] at hm2; simp at hm2
        | none => simp [dictGet, if_neg (Ne.symm hmn)]
      rw [step, ih (reg ++ [(n, cid)]) hfresh2 (List.Nodup.of_cons hnodup)]
      simp

/-- Registering names that are fresh and distinct up to a first
colliding name raises the duplicate-name error, with exactly the names
before the collision added to the registry. -/
theorem add_command_collision (cid : Nat) (pre : List String) :
    ∀ (reg : List (String × Nat)) (n : String) (post : List String),
      (∀ m ∈ pre, (dictGet m reg).isSome = false) → pre.Nodup →
      ((dictGet n reg).isSome = true ∨ n ∈ pre) →
      add_command cid reg (pre ++ n :: post) =
        (some (.valueError "A command with this name already exists"),
         reg ++ pre.map (fun m => (m, cid))) := by
  induction pre with
  | nil =>
      intro reg n post _ _ hcol
      rcases hcol with hc | hc
      · simp [add_command, hc]
      · exact absurd hc (List.not_mem_nil n)
  | cons m pre2 ih =>
      intro reg n post hfresh hnodup hcol
      have hm : (dictGet m reg).isSome = false := hfresh m (List.mem_cons_self m pre2)
      have step : add_command cid reg ((m :: pre2) ++ n :: post) =
          add_command cid (reg ++ [(m, cid)]) (pre2 ++ n :: post) := by
        simp [add_command, hm]
      have hfresh2 : ∀ p ∈ pre2, (dictGet p (reg ++ [(m, cid)])).isSome = false := by
        intro p hp
        have hp2 : (dictGet p reg).isSome = false :=
          hfresh p (List.mem_cons_of_mem _ hp)
        have hpm : p ≠ m := by
          intro hEq
          exact (List.nodup_cons.mp hnodup).1 (hEq ▸ hp)
        rw [dictGet_append]
        cases hg : dictGet p reg with
        | some v => rw [hg] at hp2; simp at hp2
        | none => simp [dictGet, if_neg (Ne.symm hpm)]
      have hcol2 : (dictGet n (reg ++ [(m, cid)])).isSome = true ∨ n ∈ pre2 := by
        rcases hcol with hc | hc
        · left
          rw [dictGet_append]
          cases hg : dictGet n reg with
          | some v => simp
          | none => rw [hg] at hc; simp at hc
        · rcases List.mem_cons.mp hc with hEq | hc2
          · left
            subst hEq
            rw [dictGet_append]
            cases hg : dictGet n reg with
            | some v => rw [hg] at hm; simp at hm
            | none => simp [dictGet]
          · right; exact hc2
      rw [step, ih (reg ++ [(m, cid)]) n post hfresh2 (List.Nodup.of_cons hnodup) hcol2]
      simp

/-- C1 (amended): registration walks the command's names in order and
raises `DuplicateNameError` at the first name that already exists (or
repeats), but it is not atomic — the names before the collision stay
registered; only when every name is fresh and the names are pairwise
distinct do all of them become keys mapping to the command. -/
theorem c1_add_command_first_collision (cid : Nat) :
    (∀ (reg : List (String × Nat)) (names : List String),
       (∀ n ∈ names, (dictGet n reg).isSome = false) → names.Nodup →
       add_command cid reg names = (none, reg ++ names.map (fun n => (n, cid)))) ∧
    (∀ (reg : List (String × Nat)) (pre : List String) (n : String)
       (post : List String),
       (∀ m ∈ pre, (dictGet m reg).isSome = false) → pre.Nodup →
       ((dictGet n reg).isSome = true ∨ n ∈ pre) →
       add_command cid reg (pre ++ n :: post) =
         (some (.valueError "A command with this name already exists"),
          reg ++ pre.map (fun m => (m, cid)))) :=
  ⟨fun reg names => add_command_fresh cid names reg,
   fun reg pre n post => add_command_collision cid pre reg n post⟩

/-- C1 counterexample: registering a command named `a` with alias `b`
into a registry that already holds `b` raises the duplicate-name
error, yet `a` stays registered — the registry afterwards differs from
the registry before, refuting atomicity. -/
theorem c1_counterexample :
    add_command 1 [("b", 0)] ["a", "b"] =
      (some (.valueError "A command with this name already exists"),
       [("b", 0), ("a", 1)]) ∧
    ([("b", 0), ("a", 1)] : List (String × Nat)) ≠ [("b", 0)] := by
  exact ⟨rfl, by decide⟩

/-- Witness for `c1_add_command_first_collision` at concrete inputs. -/
theorem c1_witness :
    add_command 7 [] ["x", "y"] = (none, [("x", 7), ("y", 7)]) ∧
    add_command 7 [("x", 0)] ["a", "x"] =
      (some (.valueError "A command with this name already exists"),
       [("x", 0), ("a", 7)]) :=
  ⟨(c1_add_command_first_collision 7).1 [] ["x", "y"] (by decide) (by decide),
   (c1_add_command_first_collision 7).2 [("x", 0)] ["a"] "x" []
     (by decide) (by decide) (Or.inl (by decide))⟩

/-- C2 (amended): because Python `or` short-circuits around the walrus
assignment to `skwarg`, the tokens handed to the binder for a flagged
parameter are never the merge of both lists: when the long name has
values, exactly the long-name list is used and the short-alias list is
dropped; the short-alias list is used only when the long name is
absent from the flag mapping. -/
theorem c2_long_shadows_short :
    (∀ (kwargs : List (String × List String)) (nm : String)
       (short : Option String) (kw : List String),
       dictGet nm kwargs = some kw → gatherFlag kwargs nm short = some kw) ∧
    (∀ (kwargs : List (String × List String)) (nm s : String)
       (skw : List String),
       dictGet nm kwargs = none → dictGet s kwargs = some skw →
       gatherFlag kwargs nm (some s) = some skw) := by
  constructor
  · intro kwargs nm short kw h
    unfold gatherFlag
    rw [h]
  · intro kwargs nm s skw h1 h2
    simp [gatherFlag, h1, h2]

/-- C2 counterexample: a command with the flagged parameter `flag`
(short alias `f`, `multiple=True`, string parser) invoked on
`!c --flag a -f b` binds `flag` to the single value `a` — the
short-alias token `b` is dropped, not merged after the long-name
tokens as the claim states. -/
theorem c2_counterexample :
    commandInvoke [⟨"flag", strValParse, true, none, true, some "f", true⟩]
        "!" "!c --flag a -f b" =
      .ok [("flag", some (.many [.str "a"]))] ∧
    ([("flag", some (.many [.str "a"]))] : List (String × PyVal)) ≠
      [("flag", some (.many [.str "a", .str "b"]))] := by
  exact ⟨by decide, by decide⟩

/-- Witness for `c2_long_shadows_short` at concrete inputs. -/
theorem c2_witness :
    gatherFlag [("flag", ["a"]), ("f", ["b"])] "flag" (some "f") = some ["a"] ∧
    gatherFlag [("f", ["b"])] "flag" (some "f") = some ["b"] :=
  ⟨c2_long_shadows_short.1 [("flag", ["a"]), ("f", ["b"])] "flag" (some "f")
     ["a"] (by decide),
   c2_long_shadows_short.2 [("f", ["b"])] "flag" "f" ["b"] (by decide) (by decide)⟩

/-- C3 (amended): at the binder level a non-required parameter whose
declared default is non-null does resolve zero parsed values to that
default; but during invocation a flagged parameter with no occurrence
of either of its names in the text makes `Command.invoke` raise
`ValueError("Not enough args")` regardless of requiredness — the
default is never consulted for an absent flagged parameter. -/
theorem c3_default_binding :
    (∀ (α : Type) (p : String → Except PErr (List α)) (mult : Bool)
       (nm : String) (d : α) (args : List String) (parsed : List (List α)),
       mapMParse p args = .ok parsed → parsed.flatten = [] →
       paramParse p false (some d) mult nm args = .ok (.single d)) ∧
    (∀ (kwargs : List (String × List String)) (v : CmdParam)
       (rest : List CmdParam) (passed : List (String × PyVal)),
       gatherFlag kwargs v.name v.short = none →
       bindFlagged kwargs (v :: rest) passed =
         .error (.valueError "Not enough args")) := by
  constructor
  · intro α p mult nm d args parsed h1 h2
    simp [paramParse, h1, h2]
  · intro kwargs v rest passed h
    simp [bindFlagged, h]

/-- C3 counterexample: a command whose only parameter `opt` is
flagged, not required, and has default `"d"`, invoked on text with no
occurrence of the flag, raises `ValueError("Not enough args")` instead
of binding the default. -/
theorem c3_counterexample :
    commandInvoke [⟨"opt", strValParse, false, some (.str "d"), false, none, true⟩]
        "!" "!c" = .error (.valueError "Not enough args") := by
  decide

/-- Witness for `c3_default_binding` at concrete inputs. -/
theorem c3_witness :
    paramParse strValParse false (some (.str "d")) false "opt" [] =
      .ok (.single (.str "d")) ∧
    bindFlagged []
        [⟨"opt", strValParse, false, some (.str "d"), false, none, true⟩] [] =
      .error (.valueError "Not enough args") :=
  ⟨c3_default_binding.1 Val strValParse false "opt" (.str "d") [] [] rfl rfl,
   c3_default_binding.2 []
     ⟨"opt", strValParse, false, some (.str "d"), false, none, true⟩ [] [] rfl⟩

/-- C4: an extension holding the registered command `foo`, invoked on
a message whose leading keyword after the prefix is `foo`, does not
invoke the command: the code calls `Command.invoke_with_client`, an
attribute the `Command` class does not define, so the dispatch raises
`AttributeError`; a non-matching keyword is a quiet no-op. -/
theorem c4_extension_invoke_attribute_error :
    extensionInvoke [("foo", 0)] "!" "!foo" =
      .error (.attributeError "Command object has no attribute invoke_with_client") ∧
    extensionInvoke [("foo", 0)] "!" "!bar" = .ok none := by
  exact ⟨by decide, by decide⟩

/-- C5 (amended): a message that does not start with the prefix
triggers no command and no error; a message whose leading keyword
after the prefix matches no registered command triggers no command and
no error; but a message equal to the prefix alone (or prefix followed
only by whitespace) raises `IndexError` inside the first registered
listener predicate, because `"".split()[0]` subscripts an empty
list. -/
theorem c5_dispatch_noop :
    (∀ (listeners : List (List String)) (pfx content : String),
       strStartsWith content pfx = false →
       handle_message listeners pfx content = .ok []) ∧
    (∀ (listeners : List (List String)) (pfx content : String)
       (w : List Char) (ws : List (List Char)),
       pySplitWs [] (strDrop content pfx.length).data = w :: ws →
       (∀ names ∈ listeners, names.contains (String.mk w) = false) →
       handle_message listeners pfx content = .ok []) ∧
    (∀ (names : List String) (rest : List (List String)) (pfx content : String),
       strStartsWith content pfx = true →
       pySplitWs [] (strDrop content pfx.length).data = [] →
       handle_message (names :: rest) pfx content = .error .indexError) := by
  refine ⟨?_, ?_, ?_⟩
  · intro listeners pfx content h
    induction listeners with
    | nil => rfl
    | cons names rest ih =>
        have hp : cmdPred names pfx content = .ok false := by
          simp [cmdPred, h]
        simp [handle_message, hp, ih]
  · intro listeners pfx content w ws hsplit
    induction listeners with
    | nil => intro _; rfl
    | cons names rest ih =>
        intro hmiss
        have hm := hmiss names (List.mem_cons_self names rest)
        have hp : cmdPred names pfx content = .ok false := by
          by_cases hs : strStartsWith content pfx = true
          · simp [cmdPred, hs, hsplit]
            simpa using hm
          · simp [cmdPred, hs]
        have ih2 := ih (fun nm hnm => hmiss nm (List.mem_cons_of_mem _ hnm))
        simp [handle_message, hp, ih2]
  · intro names rest pfx content hs hsplit
    simp [handle_message, cmdPred, hs, hsplit]

/-- C5 counterexample: with one command `foo` registered, dispatching
the message consisting of the prefix alone raises `IndexError` rather
than being a no-op. -/
theorem c5_counterexample :
    handle_message [["foo"]] "!" "!" = .error .indexError := by
  decide

/-- Witness for `c5_dispatch_noop` at concrete inputs. -/
theorem c5_witness :
    handle_message [["foo"]] "!" "hello" = .ok [] ∧
    handle_message [["foo"]] "!" "!bar x" = .ok [] ∧
    handle_message [["foo"]] "!" "! " = .error .indexError :=
  ⟨c5_dispatch_noop.1 [["foo"]] "!" "hello" (by decide),
   c5_dispatch_noop.2.1 [["foo"]] "!" "!bar x" ['b', 'a', 'r'] [['x']]
     (by decide) (by decide),
   c5_dispatch_noop.2.2 ["foo"] [] "!" "! " (by decide) (by decide)⟩

/-- C6: a required parameter bound to zero resulting values fails with
the missing-parameter `ValueError`; during invocation, a positional
required parameter left without a token fails at once with
`ValueError("Not enough args")`, as the concrete no-argument
invocation shows end to end. -/
theorem c6_missing_required :
    (∀ (α : Type) (p : String → Except PErr (List α)) (dflt : Option α)
       (mult : Bool) (nm : String) (args : List String) (parsed : List (List α)),
       mapMParse p args = .ok parsed → parsed.flatten = [] →
       paramParse p true dflt mult nm args =
         .error (.valueError ("Parameter " ++ nm ++ " is required"))) ∧
    (∀ (q : CmdParam) (rest : List CmdParam) (passed : List (String × PyVal)),
       q.required = true → pyIsNone (dictGet q.name passed) = true →
       checkPositional (q :: rest) passed = .error (.valueError "Not enough args")) ∧
    commandInvoke [⟨"x", strValParse, true, none, false, none, false⟩] "!" "!c" =
      .error (.valueError "Not enough args") := by
  refine ⟨?_, ?_, by decide⟩
  · intro α p dflt mult nm args parsed h1 h2
    simp [paramParse, h1, h2]
  · intro q rest passed h1 h2
    simp [checkPositional, h1, h2]

/-- Witness for `c6_missing_required` at concrete inputs. -/
theorem c6_witness :
    paramParse strValParse true none false "x" [] =
      .error (.valueError "Parameter x is required") ∧
    checkPositional [⟨"x", strValParse, true, none, false, none, false⟩] [] =
      .error (.valueError "Not enough args") :=
  ⟨c6_missing_required.1 Val strValParse none false "x" [] [] rfl rfl,
   c6_missing_required.2.1 ⟨"x", strValParse, true, none, false, none, false⟩
     [] [] rfl rfl⟩

/-- Invariant on the accumulated positional tokens: all non-empty. -/
def argsOk (l : List String) : Prop := ∀ t ∈ l, t ≠ ""

theorem argsOk_append_one {l : List String} {v : String}
    (h : argsOk l) (hv : v ≠ "") : argsOk (l ++ [v]) := by
  intro t ht
  rcases List.mem_append.mp ht with ht | ht
  · exact h t ht
  · rw [List.mem_singleton.mp ht]; exact hv

/-- The commit step either leaves the positional tokens alone or
appends a single non-empty token (the `elif value:` guard). -/
theorem commit_args (st : TokState) :
    (commit st).args = st.args ∨
      ∃ v, v ≠ "" ∧ (commit st).args = st.args ++ [v] := by
  unfold commit
  split_ifs with h1 h2
  · left; rfl
  · right; exact ⟨st.value, h2, rfl⟩
  · left; rfl

theorem commit_argsOk {st : TokState} (h : argsOk st.args) :
    argsOk (commit st).args := by
  rcases commit_args st with he | ⟨v, hv, he⟩ <;> rw [he]
  · exact h
  · exact argsOk_append_one h hv

theorem bareDash_argsOk {st : TokState} (h : argsOk st.args) :
    argsOk (bareDash st).args := by
  unfold bareDash
  split_ifs with h1 h2
  · exact argsOk_append_one h (by decide)
  · exact argsOk_append_one h (by decide)
  · exact h

theorem spaceStep_argsOk {st : TokState} (h : argsOk st.args) :
    argsOk (spaceStep st).args := by
  have hb : argsOk (bareDash st).args := bareDash_argsOk h
  simp only [spaceStep]
  split_ifs with h1 h2 h3
  · exact hb
  · exact hb
  · exact hb
  · exact commit_argsOk hb

theorem tokStep_argsOk {st : TokState} (c : Char) (h : argsOk st.args) :
    argsOk (tokStep st c).args := by
  unfold tokStep
  split_ifs with h1 h2 h3 h4 h5 h6 h7 h8 h9
  · exact h
  · exact h
  · exact h
  · exact commit_argsOk h
  · exact h
  · exact h
  · exact h
  · exact h
  · exact spaceStep_argsOk h
  · exact h

theorem foldl_argsOk : ∀ (cs : List Char) (st : TokState),
    argsOk st.args → argsOk (cs.foldl tokStep st).args
  | [], _, h => h
  | c :: cs, st, h => foldl_argsOk cs (tokStep st c) (tokStep_argsOk c h)

theorem tokFinish_argsOk {st : TokState} (h : argsOk st.args) :
    argsOk (tokFinish st).1 := by
  unfold tokFinish
  split_ifs with h1 h2
  · exact h
  · exact argsOk_append_one h h2
  · exact h

/-- C9: the tokenizer is total — `parse_content` is, for every input
string, the fold of the (total) character step followed by the
end-of-input commit, which commits a pending flag entry or a pending
non-empty positional value exactly as the in-loop commit does; an
unterminated quote and a dangling escape are absorbed rather than
rejected, as the two concrete malformed inputs show. -/
theorem c9_tokenizer_total :
    (∀ content : String,
       parse_content content = tokFinish (content.data.foldl tokStep tokInit)) ∧
    (∀ st : TokState, st.name ≠ "" →
       tokFinish st = (st.args, kwAppend st.kwargs st.name st.value)) ∧
    (∀ st : TokState, st.name = "" → st.value ≠ "" →
       tokFinish st = (st.args ++ [st.value], st.kwargs)) ∧
    parse_content "\"bar baz" = (["bar baz"], []) ∧
    parse_content "ab\\" = (["ab"], []) := by
  refine ⟨fun _ => rfl, ?_, ?_, by decide, by decide⟩
  · intro st h
    simp [tokFinish, h]
  · intro st h1 h2
    simp [tokFinish, h1, h2]

/-- Witness for `c9_tokenizer_total` at concrete loop states. -/
theorem c9_witness :
    tokFinish ⟨[], [], false, false, false, false, "v", "f"⟩ =
      ([], [("f", ["v"])]) ∧
    tokFinish ⟨[], [], false, false, false, false, "v", ""⟩ = (["v"], []) :=
  ⟨c9_tokenizer_total.2.1 ⟨[], [], false, false, false, false, "v", "f"⟩
     (by decide),
   c9_tokenizer_total.2.2.1 ⟨[], [], false, false, false, false, "v", ""⟩
     rfl (by decide)⟩

/-- C10: every positional token produced by the tokenizer is a
non-empty string (a quoted empty string contributes no positional
token), while flag value lists may contain empty strings: tokenizing
a long flag followed by an empty quoted string yields no positional
token and maps the flag to a list holding the empty string. -/
theorem c10_positional_nonempty :
    (∀ (content : String) (t : String),
       t ∈ (parse_content content).1 → t ≠ "") ∧
    parse_content "--f \"\"" = ([], [("f", [""])]) := by
  constructor
  · intro content t ht
    exact tokFinish_argsOk
      (foldl_argsOk content.data tokInit
        (fun u hu => absurd hu (List.not_mem_nil u)))
      t ht
  · decide

/-- Witness for `c10_positional_nonempty` at a concrete input. -/
theorem c10_witness :
    "foo" ∈ (parse_content "foo").1 ∧ "foo" ≠ "" :=
  ⟨by decide, c10_positional_nonempty.1 "foo" "foo" (by decide)⟩
